import Mathlib

/-!
Verification of the JSON-to-schema inference engine of the `aapi` repository
(`src/utils/schema-parser.js`).

The JavaScript source is shallowly embedded: JSON values become an inductive
type, each exported function of `schema-parser.js` becomes a Lean function of
the same name, and JavaScript numbers are modelled as exact rationals (the
only numeric operation the source performs is `Number.isInteger`, which on a
rational is `den = 1`, and the comparison `count / sampleCount > 0.8`, which
for the reachable small fractions agrees with exact rational comparison).
Object entry lists are taken in JavaScript `Object.entries` enumeration
order.
-/

namespace Aapi

/-- A parsed JSON value, as handed to `analyzeSchema` by the CLI layer
(`JSON.parse` output: `undefined` cannot occur). `num` carries the exact
rational value of the JavaScript number. -/
inductive Json where
  | null : Json
  | str : String → Json
  | num : ℚ → Json
  | bool : Bool → Json
  | arr : List Json → Json
  | obj : List (String × Json) → Json

/-- The test `/^\d{4}-\d{2}-\d{2}/.test(value)` of `schema-parser.js`
(lines 21 and 67): four digits, a dash, two digits, a dash, two digits, at
the start of the string. -/
def matchesLeadingDate (s : String) : Bool :=
  match s.data with
  | c1 :: c2 :: c3 :: c4 :: c5 :: c6 :: c7 :: c8 :: c9 :: c10 :: _ =>
      c1.isDigit && c2.isDigit && c3.isDigit && c4.isDigit && c5 == '-' &&
      c6.isDigit && c7.isDigit && c8 == '-' && c9.isDigit && c10.isDigit
  | _ => false

/-- One character of the class `[0-9a-fA-F]`. -/
def isHexChar (c : Char) : Bool :=
  c.isDigit || ('a' ≤ c && c ≤ 'f') || ('A' ≤ c && c ≤ 'F')

/-- The test `/^[0-9a-fA-F]{24}$/.test(value)` of `schema-parser.js`
(line 25): exactly 24 hexadecimal characters. -/
def matchesObjectId (s : String) : Bool :=
  s.data.length == 24 && s.data.all isHexChar

/-- `inferMongooseType` (`schema-parser.js` lines 11-50). The
`number` case keeps the source's `Number.isInteger(value) ? 'Number' :
'Number'` branch verbatim. -/
def inferMongooseType : Json → String
  | .null => "Mixed"
  | .str s =>
      if matchesLeadingDate s then "Date"
      else if matchesObjectId s then "ObjectId"
      else "String"
  | .num q => if q.den = 1 then "Number" else "Number"
  | .bool _ => "Boolean"
  | .arr [] => "[Mixed]"
  | .arr (x :: _) => "[" ++ inferMongooseType x ++ "]"
  | .obj _ => "Mixed"

/-- `inferGraphQLType` (`schema-parser.js` lines 57-91). Note: unlike
`inferMongooseType`, the source has no ObjectId branch here — a 24-hex
string falls through to `"String"`. -/
def inferGraphQLType : Json → String
  | .null => "String"
  | .str s =>
      if matchesLeadingDate s then "Date"
      else "String"
  | .num q => if q.den = 1 then "Int" else "Float"
  | .bool _ => "Boolean"
  | .arr [] => "[String]"
  | .arr (x :: _) => "[" ++ inferGraphQLType x ++ "]"
  | .obj _ => "JSON"

/-- The reserved-key test `key === '_id' || key === '__v'` of
`analyzeSchema` (`schema-parser.js` line 114). -/
def reservedKey (k : String) : Bool := k == "_id" || k == "__v"

/-- A field accumulator during the scan of `analyzeSchema`: the record the
source creates at lines 119-125 plus the `count` bookkeeping of line 134
(the source deletes `count` at line 142 before returning). -/
structure FieldAcc where
  name : String
  mongooseType : String
  graphqlType : String
  required : Bool
  samples : List Json
  count : Nat

/-- A finished field descriptor of the returned FieldModel (after
`required` has been computed and `count` deleted, lines 140-143). -/
structure Field where
  name : String
  mongooseType : String
  graphqlType : String
  required : Bool
  samples : List Json

/-- `Object.entries(sample)` together with the guard
`typeof sample !== 'object' || sample === null` (lines 108-110, 112):
JavaScript `typeof` classifies arrays and plain objects as `'object'`
(an array enumerates as its indices, in ascending order, mapped to decimal
string keys), while `null`, strings, numbers and booleans are skipped and
yield no entries. -/
def entriesOf : Json → List (String × Json)
  | .obj kvs => kvs
  | .arr xs => xs.enum.map (fun p => (toString p.1, p.2))
  | _ => []

/-- The per-field update of lines 128-134: push the value onto `samples`
while fewer than 3 are stored, and increment the presence count. -/
def bumpField (v : Json) (f : FieldAcc) : FieldAcc :=
  { f with
    samples := if f.samples.length < 3 then f.samples ++ [v] else f.samples,
    count := f.count + 1 }

/-- The descriptor created at first sight of a key (lines 119-125; the
`count` of line 134 starts absent, i.e. `0`, before its first increment). -/
def newFieldAcc (kv : String × Json) : FieldAcc :=
  { name := kv.1, mongooseType := inferMongooseType kv.2,
    graphqlType := inferGraphQLType kv.2, required := false,
    samples := [], count := 0 }

/-- The dictionary-slot update `fields[key] = ...` of lines 128-134, as a
per-element function: only the field named `kv.1` is touched. -/
def updateSlot (kv : String × Json) (f : FieldAcc) : FieldAcc :=
  if f.name == kv.1 then bumpField kv.2 f else f

/-- The body of the inner `for (const [key, value] of Object.entries(sample))`
loop (lines 112-135) on the error-free path: skip reserved keys; create the
descriptor on first sight of a key (lines 118-126, in insertion order at
the end of the map); then update samples and count for that key. The
creation guard `!fields[key]` of line 118 is modelled as "no own property
named `key`" (the `any` test); for keys inherited from `Object.prototype`
the guard instead sees the inherited truthy value and the source throws a
TypeError at line 129 — that error path is modelled by `processEntryE`
below, of which this function is the error-free restriction. The `map`
touches exactly the field named `kv.1`, mirroring the single
dictionary-slot update of the source (field names in the accumulator are
unique by construction). -/
def processEntry (fields : List FieldAcc) (kv : String × Json) : List FieldAcc :=
  if reservedKey kv.1 then fields
  else
    let withField :=
      if fields.any (fun f => f.name == kv.1) then fields
      else fields ++ [newFieldAcc kv]
    withField.map (updateSlot kv)

/-- `Array.isArray(data) ? data : [data]` (line 99). -/
def rawSamples : Json → List Json
  | .arr xs => xs
  | v => [v]

/-- `samples.slice(0, 10)` (line 102): the samples actually examined. -/
def examinedSamples (data : Json) : List Json := (rawSamples data).take 10

/-- The double loop of lines 107-136, as a fold over the examined samples. -/
def scanFields (samples : List Json) : List FieldAcc :=
  samples.foldl (fun fs s => (entriesOf s).foldl processEntry fs) []

/-- The test `field.count / sampleCount > 0.8` of line 141. The source
compares in (exact-for-these-values) floating point; here the exact
rational `count / sampleCount` (as `mkRat`, the kernel-computable form of
rational division) is compared with `0.8 = 4/5`, which agrees with the
double-precision comparison for every reachable `count ≤ sampleCount ≤ 10`. -/
def requiredThreshold (count sampleCount : Nat) : Bool :=
  Rat.blt (mkRat 4 5) (mkRat count sampleCount)

/-- Lines 140-143: compute `required` and delete `count`. -/
def finalizeField (sampleCount : Nat) (f : FieldAcc) : Field :=
  { name := f.name, mongooseType := f.mongooseType,
    graphqlType := f.graphqlType,
    required := requiredThreshold f.count sampleCount,
    samples := f.samples }

/-- `analyzeSchema` (`schema-parser.js` lines 98-146). The result is the
insertion-ordered field model. -/
def analyzeSchema (data : Json) : List Field :=
  let samples := examinedSamples data
  (scanFields samples).map (finalizeField samples.length)

/-- Access a field of the model by name (the model is a JS object keyed by
field name; names are unique, so `find?` is the lookup). -/
def lookupField (fs : List Field) (k : String) : Option Field :=
  fs.find? (fun f => f.name == k)

/-- Accumulator-level lookup. -/
def lookupAcc (fs : List FieldAcc) (k : String) : Option FieldAcc :=
  fs.find? (fun f => f.name == k)

/-- All scanned entries of a sample list, in scan order. -/
def allEntries (samples : List Json) : List (String × Json) :=
  (samples.map entriesOf).flatten

/-- The scanned entries carrying a given key, in scan order. -/
def keyEntries (es : List (String × Json)) (k : String) : List (String × Json) :=
  es.filter (fun kv => kv.1 == k)

/-- Number of examined samples whose entry list contains the key: the
spec's "presence count". -/
def samplesContaining (samples : List Json) (k : String) : Nat :=
  (samples.filter (fun s => (entriesOf s).any (fun kv => kv.1 == k))).length

/-- The guard of line 108, as a predicate: `true` exactly for the values
JavaScript's `typeof` calls `'object'` that are not `null`. -/
def isObjectSample : Json → Bool
  | .obj _ => true
  | .arr _ => true
  | _ => false

/-! ## The scan's error path

The accumulator `fields = {}` of line 104 is a plain JavaScript object, so
the creation guard `!fields[key]` of line 118 reads through the prototype
chain: for a key that `Object.prototype` provides (`constructor`,
`toString`, `__proto__`, ...) the guard sees the inherited truthy value,
the descriptor is never created, and line 129 `fields[key].samples.length`
reads `.length` off `undefined` — a TypeError. The following definitions
model the scan with this error path included; `analyzeSchema` above is its
restriction to the error-free runs. -/

/-- The property keys every plain JavaScript object inherits from
`Object.prototype`; reading any of them on the empty accumulator yields a
truthy value (a built-in function, or the prototype itself for
`__proto__`). -/
def objectPrototypeKeys : List String :=
  ["constructor", "hasOwnProperty", "isPrototypeOf", "propertyIsEnumerable",
   "toLocaleString", "toString", "valueOf", "__proto__",
   "__defineGetter__", "__defineSetter__", "__lookupGetter__", "__lookupSetter__"]

/-- Whether `fields[k]` on an accumulator with no own property `k` still
yields a truthy inherited value. -/
def inheritedKey (k : String) : Bool := objectPrototypeKeys.contains k

/-- The TypeError thrown at line 129 when the creation guard misfires. -/
def scanTypeError : String :=
  "TypeError: Cannot read properties of undefined (reading \x27length\x27)"

/-- The inner loop body of lines 112-135 with the error path: an own field
updates normally; a key with no own field is created unless it is
inherited from `Object.prototype`, in which case `!fields[key]` is false,
no descriptor is created, and `fields[key].samples.length` throws. -/
def processEntryE (fields : List FieldAcc) (kv : String × Json) :
    Except String (List FieldAcc) :=
  if reservedKey kv.1 then .ok fields
  else if fields.any (fun f => f.name == kv.1) then .ok (fields.map (updateSlot kv))
  else if inheritedKey kv.1 then .error scanTypeError
  else .ok ((fields ++ [newFieldAcc kv]).map (updateSlot kv))

/-- The inner entry loop, stopping at the first thrown TypeError. -/
def foldProcessE : List FieldAcc → List (String × Json) → Except String (List FieldAcc)
  | fs, [] => .ok fs
  | fs, kv :: rest =>
      match processEntryE fs kv with
      | .error e => .error e
      | .ok fs2 => foldProcessE fs2 rest

/-- The outer sample loop of lines 107-136, propagating a thrown
TypeError. -/
def scanAllE : List FieldAcc → List Json → Except String (List FieldAcc)
  | fs, [] => .ok fs
  | fs, s :: rest =>
      match foldProcessE fs (entriesOf s) with
      | .error e => .error e
      | .ok fs2 => scanAllE fs2 rest

/-- `analyzeSchema` (lines 98-146) with the error path of the scan
included: either the thrown TypeError, or the finished FieldModel. -/
def analyzeSchemaE (data : Json) : Except String (List Field) :=
  let samples := examinedSamples data
  match scanAllE [] samples with
  | .error e => .error e
  | .ok fs => .ok (fs.map (finalizeField samples.length))

/-- Two entries in the first ten, one of them the non-object `5`; the key
`constructor` is inherited from `Object.prototype`, so the scan throws. -/
def protoKeyCounterData : Json :=
  .arr [.obj [("constructor", .num 1)], .num 5]

/-! ## Code projection (`schema-parser.js` lines 153-276) -/

/-- `typeStr.startsWith('[')` (line 158): for the one-character pattern
`'['` this is exactly "the first character is `[`". -/
def startsWithLBracket (s : String) : Bool :=
  match s.data with
  | [] => false
  | c :: _ => c == '['

/-- One line of the Mongoose schema fragment: the `.map` body of
`generateMongooseSchema` (lines 154-168). -/
def mongooseFieldLine (f : Field) : String :=
  let requiredStr := if f.required then ", required: true" else ""
  if startsWithLBracket f.mongooseType then
    "  " ++ f.name ++ ": \x7b type: " ++ f.mongooseType ++ requiredStr ++ " \x7d"
  else if f.mongooseType == "Mixed" then
    "  " ++ f.name ++ ": \x7b type: mongoose.Schema.Types.Mixed" ++ requiredStr ++ " \x7d"
  else if f.mongooseType == "ObjectId" then
    "  " ++ f.name ++ ": \x7b type: mongoose.Schema.Types.ObjectId, ref: \x27TODO\x27" ++ requiredStr ++ " \x7d"
  else
    "  " ++ f.name ++ ": \x7b type: " ++ f.mongooseType ++ requiredStr ++ " \x7d"

/-- `generateMongooseSchema` (lines 153-171). -/
def generateMongooseSchema (fields : List Field) : String :=
  "\x7b\n" ++ String.intercalate ",\n" (fields.map mongooseFieldLine) ++ "\n\x7d"

/-- One GraphQL field line: the `.map` body shared by `generateGraphQLType`
(lines 180-184) and `generateGraphQLInput` (lines 198-202). -/
def graphqlFieldLine (f : Field) : String :=
  "  " ++ f.name ++ ": " ++ f.graphqlType ++ (if f.required then "!" else "")

/-- `generateGraphQLType` (lines 179-187). -/
def generateGraphQLType (typeName : String) (fields : List Field) : String :=
  "type " ++ typeName ++ " \x7b\n  _id: ID!\n" ++
    String.intercalate "\n" (fields.map graphqlFieldLine) ++
    "\n  createdAt: Date\n  updatedAt: Date\n\x7d"

/-- The filter of `generateGraphQLInput` line 197. -/
def inputFieldFilter (f : Field) : Bool :=
  f.name != "_id" && f.name != "createdAt" && f.name != "updatedAt"

/-- `generateGraphQLInput` (lines 195-205). -/
def generateGraphQLInput (typeName : String) (fields : List Field) : String :=
  "input " ++ typeName ++ "Input \x7b\n" ++
    String.intercalate "\n" ((fields.filter inputFieldFilter).map graphqlFieldLine) ++
    "\n\x7d"

/-- `typeName.charAt(0).toLowerCase() + typeName.slice(1)` (line 214). -/
def lowerFirst (s : String) : String :=
  match s.data with
  | [] => ""
  | c :: rest => String.mk (c.toLower :: rest)

/-! The template literal of `generateResolvers` (lines 217-245), split at
line boundaries into the header, the five operation stubs and the footer;
`generateResolvers` is their concatenation in source order. -/

/-- Lines 217-220 of the template: import and the `Query` opener. -/
def resolversHeader (t : String) : String :=
  "import " ++ t ++ " from \x27../../models/" ++ t ++ ".js\x27;\n\nexport default \x7b\n  Query: \x7b\n"

/-- Line 221: the list-all query stub. -/
def listStub (t : String) : String :=
  "    " ++ lowerFirst t ++ "s: async () => " ++ t ++ ".find().lean(),\n"

/-- Lines 222-226: the get-by-id query stub. -/
def getByIdStub (t : String) : String :=
  "    " ++ lowerFirst t ++ ": async (_, \x7b id \x7d) => \x7b\n      const result = await " ++ t ++
    ".findById(id).lean();\n      if (!result) throw new Error(\x27" ++ t ++
    " not found\x27);\n      return result;\n    \x7d,\n"

/-- Lines 227-228: close `Query`, open `Mutation`. -/
def mutationOpen : String := "  \x7d,\n  Mutation: \x7b\n"

/-- Line 229: the create mutation stub. -/
def createStub (t : String) : String :=
  "    create" ++ t ++ ": async (_, \x7b input \x7d) => " ++ t ++ ".create(input),\n"

/-- Lines 230-238: the update mutation stub. -/
def updateStub (t : String) : String :=
  "    update" ++ t ++ ": async (_, \x7b id, input \x7d) => \x7b\n      const result = await " ++ t ++
    ".findByIdAndUpdate(\n        id,\n        input,\n        \x7b new: true, lean: true \x7d\n      );\n      if (!result) throw new Error(\x27" ++ t ++
    " not found\x27);\n      return result;\n    \x7d,\n"

/-- Lines 239-242: the delete mutation stub. -/
def deleteStub (t : String) : String :=
  "    delete" ++ t ++ ": async (_, \x7b id \x7d) => \x7b\n      const result = await " ++ t ++
    ".findByIdAndDelete(id);\n      return !!result;\n    \x7d,\n"

/-- Lines 243-245: close `Mutation` and the export. -/
def resolversFooter : String := "  \x7d,\n\x7d;\n"

/-- `generateResolvers` (lines 213-246). The `_fields` parameter is, as in
the source, accepted and ignored. -/
def generateResolvers (typeName : String) (_fields : List Field) : String :=
  resolversHeader typeName ++ listStub typeName ++ getByIdStub typeName ++
    mutationOpen ++ createStub typeName ++ updateStub typeName ++
    deleteStub typeName ++ resolversFooter

/-- `generateCompleteGraphQLSchema` (lines 254-276). -/
def generateCompleteGraphQLSchema (typeName : String) (fields : List Field) : String :=
  generateGraphQLType typeName fields ++ "\n\n" ++
    generateGraphQLInput typeName fields ++
    "\n\ntype Query \x7b\n  " ++ lowerFirst typeName ++ "s: [" ++ typeName ++ "!]!\n  " ++
    lowerFirst typeName ++ "(id: ID!): " ++ typeName ++
    "\n\x7d\n\ntype Mutation \x7b\n  create" ++ typeName ++ "(input: " ++ typeName ++
    "Input!): " ++ typeName ++ "\n  update" ++ typeName ++ "(id: ID!, input: " ++ typeName ++
    "Input!): " ++ typeName ++ "\n  delete" ++ typeName ++ "(id: ID!): Boolean!\n\x7d\n"

/-! ## Occurrence counting for the rendered artifacts -/

/-- Number of character positions at which `pat` occurs in `s`
(for non-empty `pat`). -/
def countOcc (pat : List Char) : List Char → Nat
  | [] => 0
  | c :: rest => (if pat.isPrefixOf (c :: rest) then 1 else 0) + countOcc pat rest

/-- Number of occurrences of `pat` as a substring of `s`. -/
def countSubstr (pat s : String) : Nat := countOcc pat.data s.data

/-- Index of the first position at which `pat` occurs, if any. -/
def firstOccIdx (pat : List Char) : List Char → Option Nat
  | [] => none
  | c :: rest =>
      if pat.isPrefixOf (c :: rest) then some 0
      else (firstOccIdx pat rest).map (· + 1)

/-- Position of the first occurrence of `pat` as a substring of `s`. -/
def substrPos (pat s : String) : Option Nat := firstOccIdx pat.data s.data

/-! ## Runtime semantics of the emitted CRUD stubs

The emitted resolver text runs, in the generated project, against a
Mongoose collection. That collection is modelled as an ordered list of
id-keyed documents, and each emitted arrow function as the corresponding
state transformer; errors thrown by the stub become `Except.error` with
the thrown message. -/

/-- The entity store the generated resolvers operate on. -/
structure EntityStore (α : Type) where
  docs : List (String × α)

/-- `Model.findById(id)`: the document with the given id, if any. -/
def storeFindById {α : Type} (st : EntityStore α) (id : String) : Option α :=
  (st.docs.find? (fun p => p.1 == id)).map Prod.snd

/-- The emitted get-by-id stub (`getByIdStub`): return the entity found by
id, or throw `<TypeName> not found` when there is none. -/
def getByIdSemantics {α : Type} (typeName : String) (st : EntityStore α)
    (id : String) : Except String α :=
  match storeFindById st id with
  | none => .error (typeName ++ " not found")
  | some e => .ok e

/-- The emitted create stub (`createStub`): `Model.create(input)` inserts
the input verbatim under a store-chosen fresh id and returns the created
entity; there is no failure branch. -/
def createSemantics {α : Type} (st : EntityStore α) (freshId : String)
    (input : α) : α × EntityStore α :=
  (input, ⟨st.docs ++ [(freshId, input)]⟩)

/-- The emitted update stub (`updateStub`): `findByIdAndUpdate` with
`new: true` applies the data layer's update (abstracted as `applyUpdate`)
to the matching document and returns the updated document, or the stub
throws `<TypeName> not found` when no document matches. -/
def updateSemantics {α : Type} (typeName : String) (applyUpdate : α → α → α)
    (st : EntityStore α) (id : String) (input : α) :
    Except String (α × EntityStore α) :=
  match storeFindById st id with
  | none => .error (typeName ++ " not found")
  | some old =>
      let newDoc := applyUpdate old input
      .ok (newDoc, ⟨st.docs.map (fun p => if p.1 == id then (p.1, newDoc) else p)⟩)

/-- The emitted delete stub (`deleteStub`): `findByIdAndDelete` removes the
matching document if any; `!!result` converts the found document (or
`null`) to the returned boolean. No failure branch exists. -/
def deleteSemantics {α : Type} (st : EntityStore α) (id : String) :
    Bool × EntityStore α :=
  match storeFindById st id with
  | some _ => (true, ⟨st.docs.eraseP (fun p => p.1 == id)⟩)
  | none => (false, st)

/-! ## Concrete sample data used by the boundary checks -/

/-- A 24-hex-character MongoDB id string. -/
def hexId : String := "507f1f77bcf86cd799439011"

/-- One sample holding a 24-hex-character string field. -/
def hexFieldSample : Json := .obj [("ref", .str hexId)]

/-- Two samples in which the key `a` is first a string, then a number. -/
def firstSeenData : Json := .arr [.obj [("a", .str "x")], .obj [("a", .num 1)]]

/-- Ten samples; `score` is present in exactly eight of them. -/
def eightOfTenData : Json :=
  .arr (List.replicate 8 (Json.obj [("score", .num 1)]) ++ [Json.obj [], Json.obj []])

/-- Ten samples; `score` is present in exactly nine of them. -/
def nineOfTenData : Json :=
  .arr (List.replicate 9 (Json.obj [("score", .num 1)]) ++ [Json.obj []])

/-- Fifteen samples; `late` occurs only in samples 11-15. -/
def lateFieldData : Json :=
  .arr (List.replicate 10 (Json.obj [("early", .bool true)]) ++
        List.replicate 5 (Json.obj [("late", .num 1)]))

/-- The spec's reserved-key sample `{"_id": "...", "__v": 0, "name": "x"}`. -/
def reservedKeySample : Json :=
  .obj [("_id", .str hexId), ("__v", .num 0), ("name", .str "x")]

/-- A single sample with only the field `name`. -/
def nameOnlySample : Json := .obj [("name", .str "x")]

/-- A single sample with the fields `name` and `age`. -/
def twoFieldSample : Json := .obj [("name", .str "x"), ("age", .num 28)]

/-- Ten entries: eight objects carrying `name`, one number, one null. -/
def mixedEntriesData : Json :=
  .arr (List.replicate 8 (Json.obj [("name", .str "x")]) ++ [Json.num 1, Json.null])

/-- The finished descriptor of `score` after nine presences in ten samples
(sample collection capped at three values). -/
def scoreFieldNine : Field :=
  { name := "score", mongooseType := "Number", graphqlType := "Int",
    required := true, samples := [.num 1, .num 1, .num 1] }

end Aapi

namespace Aapi

theorem bumpField_name (v : Json) (f : FieldAcc) : (bumpField v f).name = f.name := rfl

theorem updateSlot_name (kv : String × Json) (f : FieldAcc) :
    (updateSlot kv f).name = f.name := by
  unfold updateSlot
  by_cases hf : (f.name == kv.1) = true <;> simp [hf, bumpField]

theorem updateSlot_of_ne (kv : String × Json) (f : FieldAcc)
    (h : f.name ≠ kv.1) : updateSlot kv f = f := by
  unfold updateSlot
  rw [if_neg]
  simp [h]

theorem updateSlot_of_eq (kv : String × Json) (f : FieldAcc)
    (h : f.name = kv.1) : updateSlot kv f = bumpField kv.2 f := by
  unfold updateSlot
  rw [if_pos]
  simp [h]

theorem lookupAcc_nil (k : String) : lookupAcc [] k = none := rfl

theorem lookupAcc_cons (g : FieldAcc) (fs : List FieldAcc) (k : String) :
    lookupAcc (g :: fs) k = if g.name == k then some g else lookupAcc fs k := by
  unfold lookupAcc
  by_cases hg : (g.name == k) = true <;> simp [List.find?, hg]

theorem lookupAcc_some_name (fs : List FieldAcc) (k : String) (f : FieldAcc)
    (h : lookupAcc fs k = some f) : f.name = k := by
  induction fs with
  | nil => simp [lookupAcc_nil] at h
  | cons g gs ih =>
      rw [lookupAcc_cons] at h
      by_cases hg : (g.name == k) = true
      · rw [if_pos hg] at h
        cases h
        exact eq_of_beq hg
      · rw [if_neg hg] at h
        exact ih h

theorem any_of_lookupAcc_some (fs : List FieldAcc) (k : String) (f : FieldAcc)
    (h : lookupAcc fs k = some f) : fs.any (fun g => g.name == k) = true := by
  induction fs with
  | nil => simp [lookupAcc_nil] at h
  | cons g gs ih =>
      rw [lookupAcc_cons] at h
      by_cases hg : (g.name == k) = true
      · simp [hg]
      · rw [if_neg hg] at h
        simp [ih h]

theorem any_of_lookupAcc_none (fs : List FieldAcc) (k : String)
    (h : lookupAcc fs k = none) : fs.any (fun g => g.name == k) = false := by
  induction fs with
  | nil => rfl
  | cons g gs ih =>
      rw [lookupAcc_cons] at h
      by_cases hg : (g.name == k) = true
      · rw [if_pos hg] at h
        cases h
      · rw [if_neg hg] at h
        simp [List.any_cons, hg, ih h]

theorem lookupAcc_map_updateSlot (kv : String × Json) (fs : List FieldAcc) (k : String) :
    lookupAcc (fs.map (updateSlot kv)) k = (lookupAcc fs k).map (updateSlot kv) := by
  induction fs with
  | nil => rfl
  | cons g gs ih =>
      rw [List.map_cons, lookupAcc_cons, lookupAcc_cons, updateSlot_name kv g]
      by_cases hg : (g.name == k) = true
      · simp [hg]
      · simp only [hg, if_false, Bool.false_eq_true, ih]

theorem lookupAcc_append (fs gs : List FieldAcc) (k : String) :
    lookupAcc (fs ++ gs) k = (lookupAcc fs k).or (lookupAcc gs k) := by
  induction fs with
  | nil => rfl
  | cons g fs2 ih =>
      rw [List.cons_append, lookupAcc_cons, lookupAcc_cons]
      by_cases hg : (g.name == k) = true
      · simp [hg]
      · simp only [hg, if_false, Bool.false_eq_true, ih, Option.or]

theorem lookupAcc_processEntry_ne (fs : List FieldAcc) (kv : String × Json)
    (k : String) (h : kv.1 ≠ k) :
    lookupAcc (processEntry fs kv) k = lookupAcc fs k := by
  unfold processEntry
  by_cases hr : reservedKey kv.1 = true
  · simp [hr]
  · simp only [hr, if_false, Bool.false_eq_true]
    have hfixed : ∀ f : FieldAcc, lookupAcc fs k = some f →
        updateSlot kv f = f := by
      intro f hf
      exact updateSlot_of_ne kv f (by rw [lookupAcc_some_name fs k f hf]; exact fun hk => h hk.symm)
    by_cases hany : (fs.any fun f => f.name == kv.1) = true
    · rw [if_pos hany, lookupAcc_map_updateSlot]
      cases hfind : lookupAcc fs k with
      | none => rfl
      | some f => rw [Option.map_some', hfixed f hfind]
    · rw [if_neg hany, List.map_append, lookupAcc_append, lookupAcc_map_updateSlot]
      have hnew : lookupAcc ([newFieldAcc kv].map (updateSlot kv)) k = none := by
        rw [List.map_cons, List.map_nil, lookupAcc_cons, updateSlot_name]
        have hne : ((newFieldAcc kv).name == k) = false := beq_false_of_ne h
        rw [hne]
        simp [lookupAcc_nil]
      rw [hnew]
      cases hfind : lookupAcc fs k with
      | none => rfl
      | some f => rw [Option.map_some', hfixed f hfind]; rfl

end Aapi

namespace Aapi

theorem lookupAcc_processEntry_hit (fs : List FieldAcc) (k : String) (v : Json)
    (f : FieldAcc) (hr : reservedKey k = false) (hf : lookupAcc fs k = some f) :
    lookupAcc (processEntry fs (k, v)) k = some (bumpField v f) := by
  unfold processEntry
  simp only [hr, if_false, Bool.false_eq_true]
  have hany : (fs.any fun g => g.name == k) = true := any_of_lookupAcc_some fs k f hf
  rw [if_pos hany, lookupAcc_map_updateSlot, hf, Option.map_some',
    updateSlot_of_eq _ f (lookupAcc_some_name fs k f hf)]

theorem lookupAcc_processEntry_create (fs : List FieldAcc) (k : String) (v : Json)
    (hr : reservedKey k = false) (hf : lookupAcc fs k = none) :
    lookupAcc (processEntry fs (k, v)) k =
      some { name := k, mongooseType := inferMongooseType v,
             graphqlType := inferGraphQLType v, required := false,
             samples := [v], count := 1 } := by
  unfold processEntry
  simp only [hr, if_false, Bool.false_eq_true]
  have hany : (fs.any fun g => g.name == k) = false := any_of_lookupAcc_none fs k hf
  rw [if_neg (by simp [hany]), List.map_append, lookupAcc_append, lookupAcc_map_updateSlot, hf]
  rw [List.map_cons, List.map_nil, lookupAcc_cons, updateSlot_name]
  have hk : ((newFieldAcc (k, v)).name == k) = true := by
    simp [newFieldAcc]
  rw [hk]
  simp only [if_true, Option.or]
  rw [updateSlot_of_eq _ _ (by simp [newFieldAcc])]
  rfl

end Aapi

namespace Aapi

theorem keyEntries_nil (k : String) : keyEntries [] k = [] := rfl

theorem keyEntries_cons (e : String × Json) (es : List (String × Json)) (k : String) :
    keyEntries (e :: es) k =
      if e.1 == k then e :: keyEntries es k else keyEntries es k := by
  unfold keyEntries
  by_cases he : (e.1 == k) = true <;> simp [List.filter, he]

theorem foldl_processEntry_persist (k : String) (hr : reservedKey k = false)
    (es : List (String × Json)) :
    ∀ (fs : List FieldAcc) (f : FieldAcc), lookupAcc fs k = some f →
      ∃ f2, lookupAcc (es.foldl processEntry fs) k = some f2 ∧
        f2.name = f.name ∧ f2.mongooseType = f.mongooseType ∧
        f2.graphqlType = f.graphqlType ∧
        f2.count = f.count + (keyEntries es k).length := by
  induction es with
  | nil =>
      intro fs f hf
      exact ⟨f, hf, rfl, rfl, rfl, by simp [keyEntries_nil]⟩
  | cons e es ih =>
      intro fs f hf
      by_cases he : (e.1 == k) = true
      · have hek : e.1 = k := eq_of_beq he
        have hstep : lookupAcc (processEntry fs e) k = some (bumpField e.2 f) := by
          have : e = (k, e.2) := by rw [← hek]
          rw [this] at *
          exact lookupAcc_processEntry_hit fs k e.2 f hr hf
        obtain ⟨f2, h1, h2, h3, h4, h5⟩ := ih (processEntry fs e) (bumpField e.2 f) hstep
        refine ⟨f2, by simpa using h1, ?_, ?_, ?_, ?_⟩
        · rw [h2]; rfl
        · rw [h3]; rfl
        · rw [h4]; rfl
        · rw [h5, keyEntries_cons, if_pos he]
          simp [bumpField]
          omega
      · have hstep : lookupAcc (processEntry fs e) k = lookupAcc fs k :=
          lookupAcc_processEntry_ne fs e k (by simpa using he)
        obtain ⟨f2, h1, h2, h3, h4, h5⟩ := ih (processEntry fs e) f (hstep.trans hf)
        exact ⟨f2, by simpa using h1, h2, h3, h4, by rw [h5, keyEntries_cons, if_neg he]⟩

end Aapi

namespace Aapi

theorem foldl_processEntry_absent (k : String) (es : List (String × Json)) :
    ∀ fs : List FieldAcc, lookupAcc fs k = none → keyEntries es k = [] →
      lookupAcc (es.foldl processEntry fs) k = none := by
  induction es with
  | nil => intro fs hf _; simpa using hf
  | cons e es ih =>
      intro fs hf hke
      rw [keyEntries_cons] at hke
      by_cases he : (e.1 == k) = true
      · rw [if_pos he] at hke
        cases hke
      · rw [if_neg he] at hke
        have hstep : lookupAcc (processEntry fs e) k = lookupAcc fs k :=
          lookupAcc_processEntry_ne fs e k (by simpa using he)
        have := ih (processEntry fs e) (hstep.trans hf) hke
        simpa using this

theorem foldl_processEntry_create (k : String) (hr : reservedKey k = false)
    (es : List (String × Json)) :
    ∀ fs : List FieldAcc, lookupAcc fs k = none →
      ∀ kv0 rest, keyEntries es k = kv0 :: rest →
      ∃ f2, lookupAcc (es.foldl processEntry fs) k = some f2 ∧
        f2.name = k ∧ f2.mongooseType = inferMongooseType kv0.2 ∧
        f2.graphqlType = inferGraphQLType kv0.2 ∧
        f2.count = (keyEntries es k).length := by
  induction es with
  | nil => intro fs _ kv0 rest h; simp [keyEntries_nil] at h
  | cons e es ih =>
      intro fs hf kv0 rest hke
      by_cases he : (e.1 == k) = true
      · have hek : e.1 = k := eq_of_beq he
        rw [keyEntries_cons, if_pos he] at hke
        obtain ⟨rfl, hrest⟩ : e = kv0 ∧ keyEntries es k = rest := by
          cases hke
          exact ⟨rfl, rfl⟩
        have hstep : lookupAcc (processEntry fs e) k =
            some { name := k, mongooseType := inferMongooseType e.2,
                   graphqlType := inferGraphQLType e.2, required := false,
                   samples := [e.2], count := 1 } := by
          have h2 : e = (k, e.2) := by rw [← hek]
          rw [h2] at *
          exact lookupAcc_processEntry_create fs k e.2 hr hf
        obtain ⟨f2, h1, h2, h3, h4, h5⟩ :=
          foldl_processEntry_persist k hr es (processEntry fs e) _ hstep
        refine ⟨f2, by simpa using h1, by simpa using h2, by simpa using h3,
          by simpa using h4, ?_⟩
        rw [h5, keyEntries_cons, if_pos he, hrest]
        simp
        omega
      · rw [keyEntries_cons, if_neg he] at hke
        have hstep : lookupAcc (processEntry fs e) k = lookupAcc fs k :=
          lookupAcc_processEntry_ne fs e k (by simpa using he)
        obtain ⟨f2, h1, h2, h3, h4, h5⟩ := ih (processEntry fs e) (hstep.trans hf) kv0 rest hke
        refine ⟨f2, by simpa using h1, h2, h3, h4, ?_⟩
        rw [h5, keyEntries_cons, if_neg he]

theorem foldl_processEntry_reserved (k : String) (hr : reservedKey k = true)
    (es : List (String × Json)) :
    ∀ fs : List FieldAcc, lookupAcc (es.foldl processEntry fs) k = lookupAcc fs k := by
  induction es with
  | nil => intro fs; rfl
  | cons e es ih =>
      intro fs
      by_cases he : e.1 = k
      · have hstep : processEntry fs e = fs := by
          unfold processEntry
          rw [if_pos (by rw [he]; exact hr)]
        rw [List.foldl_cons, hstep]
        exact ih fs
      · have hstep : lookupAcc (processEntry fs e) k = lookupAcc fs k :=
          lookupAcc_processEntry_ne fs e k he
        rw [List.foldl_cons]
        exact (ih (processEntry fs e)).trans hstep

theorem scanFields_eq_foldl_allEntries (samples : List Json) :
    scanFields samples = (allEntries samples).foldl processEntry [] := by
  unfold scanFields allEntries
  generalize ([] : List FieldAcc) = init
  induction samples generalizing init with
  | nil => rfl
  | cons s rest ih =>
      rw [List.map_cons, List.flatten_cons, List.foldl_append, List.foldl_cons]
      exact ih _

theorem lookupField_map_finalize (fs : List FieldAcc) (n : Nat) (k : String) :
    lookupField (fs.map (finalizeField n)) k = (lookupAcc fs k).map (finalizeField n) := by
  induction fs with
  | nil => rfl
  | cons g gs ih =>
      rw [List.map_cons]
      unfold lookupField at *
      rw [lookupAcc_cons]
      by_cases hg : (g.name == k) = true
      · rw [if_pos hg]
        have hg2 : ((finalizeField n g).name == k) = true := hg
        simp [List.find?, hg2]
      · rw [if_neg hg]
        have hg2 : ((finalizeField n g).name == k) = false := by simpa using hg
        simp only [List.find?, hg2]
        exact ih

theorem lookupField_analyzeSchema (data : Json) (k : String) :
    lookupField (analyzeSchema data) k =
      (lookupAcc (scanFields (examinedSamples data)) k).map
        (finalizeField (examinedSamples data).length) := by
  unfold analyzeSchema
  exact lookupField_map_finalize _ _ k

end Aapi

namespace Aapi

theorem mkRat_natCast (c n : Nat) : mkRat (c : Int) n = (c : ℚ) / (n : ℚ) := by
  rw [Rat.mkRat_eq_div]
  push_cast
  ring

theorem requiredThreshold_iff (c n : Nat) :
    requiredThreshold c n = true ↔ (c : ℚ) / (n : ℚ) > (0.8 : ℚ) := by
  unfold requiredThreshold
  have hb : Rat.blt (mkRat 4 5) (mkRat (c : Int) n) = true ↔
      mkRat 4 5 < mkRat (c : Int) n := Eq.to_iff rfl
  rw [hb, mkRat_natCast]
  have h45 : (mkRat 4 5 : ℚ) = (0.8 : ℚ) := by norm_num [Rat.mkRat_eq_div]
  rw [h45]

theorem keyEntries_append (es1 es2 : List (String × Json)) (k : String) :
    keyEntries (es1 ++ es2) k = keyEntries es1 k ++ keyEntries es2 k := by
  simp [keyEntries, List.filter_append]

theorem keyEntries_of_not_mem (es : List (String × Json)) (k : String)
    (h : ∀ e ∈ es, e.1 ≠ k) : keyEntries es k = [] := by
  induction es with
  | nil => rfl
  | cons e es ih =>
      rw [keyEntries_cons, if_neg]
      · exact ih fun x hx => h x (List.mem_cons_of_mem e hx)
      · simp [h e (List.mem_cons_self e es)]

theorem keyEntries_length_nodup (es : List (String × Json)) (k : String)
    (h : (es.map Prod.fst).Nodup) :
    (keyEntries es k).length = if es.any (fun kv => kv.1 == k) then 1 else 0 := by
  induction es with
  | nil => simp [keyEntries_nil]
  | cons e es ih =>
      rw [List.map_cons, List.nodup_cons] at h
      obtain ⟨hnm, hnd⟩ := h
      rw [keyEntries_cons, List.any_cons]
      by_cases he : (e.1 == k) = true
      · rw [if_pos he]
        have hrest : keyEntries es k = [] := by
          apply keyEntries_of_not_mem
          intro x hx hxk
          apply hnm
          have hex : e.1 = x.1 := by rw [eq_of_beq he, hxk]
          rw [hex]
          exact List.mem_map_of_mem Prod.fst hx
        rw [hrest]
        have hor : (e.1 == k || es.any fun kv => kv.1 == k) = true := by
          rw [he, Bool.true_or]
        rw [if_pos hor]
        rfl
      · have he2 : (e.1 == k) = false := by
          rw [← Bool.not_eq_true]
          exact he
        rw [if_neg he, ih hnd, he2, Bool.false_or]

theorem samplesContaining_eq_keyEntries_length (samples : List Json) (k : String)
    (h : ∀ s ∈ samples, ((entriesOf s).map Prod.fst).Nodup) :
    (keyEntries (allEntries samples) k).length = samplesContaining samples k := by
  induction samples with
  | nil => rfl
  | cons s rest ih =>
      unfold allEntries samplesContaining
      rw [List.map_cons, List.flatten_cons, keyEntries_append, List.length_append]
      have hh := keyEntries_length_nodup (entriesOf s) k (h s (List.mem_cons_self s rest))
      have ihh := ih fun x hx => h x (List.mem_cons_of_mem s hx)
      unfold allEntries samplesContaining at ihh
      rw [hh, ihh, List.filter_cons]
      by_cases hs : ((entriesOf s).any fun kv => kv.1 == k) = true
      · simp only [hs, if_true, List.length_cons]
        omega
      · have hs2 : ((entriesOf s).any fun kv => kv.1 == k) = false := by
          rw [← Bool.not_eq_true]
          exact hs
        simp [hs2]

end Aapi

namespace Aapi

theorem lookupField_cons (g : Field) (fs : List Field) (k : String) :
    lookupField (g :: fs) k = if g.name == k then some g else lookupField fs k := by
  unfold lookupField
  by_cases hg : (g.name == k) = true <;> simp [List.find?, hg]

theorem lookupField_none_iff (fs : List Field) (k : String) :
    lookupField fs k = none ↔ k ∉ fs.map Field.name := by
  induction fs with
  | nil => simp [lookupField]
  | cons g gs ih =>
      rw [lookupField_cons, List.map_cons]
      by_cases hg : (g.name == k) = true
      · rw [if_pos hg, eq_of_beq hg]
        simp
      · have hg2 : ¬g.name = k := by
          intro hh
          rw [hh] at hg
          exact hg (beq_self_eq_true k)
        rw [if_neg hg, ih]
        constructor
        · intro hnot hmem
          rcases List.mem_cons.mp hmem with hh | hh
          · exact hg2 hh.symm
          · exact hnot hh
        · intro hnot hmem
          exact hnot (List.mem_cons_of_mem _ hmem)

theorem entriesOf_eq_nil_of_not_object (s : Json) (h : isObjectSample s = false) :
    entriesOf s = [] := by
  cases s <;> first | rfl | (simp [isObjectSample] at h)

theorem foldl_scan_filter (samples : List Json) :
    ∀ init : List FieldAcc,
      samples.foldl (fun fs s => (entriesOf s).foldl processEntry fs) init =
        (samples.filter isObjectSample).foldl
          (fun fs s => (entriesOf s).foldl processEntry fs) init := by
  induction samples with
  | nil => intro init; rfl
  | cons s rest ih =>
      intro init
      rw [List.foldl_cons, List.filter_cons]
      by_cases hs : isObjectSample s = true
      · rw [if_pos hs, List.foldl_cons]
        exact ih _
      · have hs2 : isObjectSample s = false := by
          rw [← Bool.not_eq_true]
          exact hs
        rw [if_neg (by simp [hs2]), entriesOf_eq_nil_of_not_object s hs2]
        exact ih init

end Aapi

namespace Aapi

set_option maxRecDepth 10000

/-- C1: the claim states that a 24-hex-character sample value is inferred
as storage `ObjectId` and api `ID`. The storage side holds, but
`inferGraphQLType` has no ObjectId branch: the api type of such a value is
`"String"`, not `"ID"` — contradicting the repository's own type table
(`FEATURE_IMPORT` doc, `ObjectId`/`ID` row) and the spec. This theorem
evaluates the code at the failing input. -/
theorem hex24_storage_objectid_but_api_string :
    inferMongooseType (Json.str hexId) = "ObjectId" ∧
    inferGraphQLType (Json.str hexId) = "String" ∧
    inferGraphQLType (Json.str hexId) ≠ "ID" ∧
    (analyzeSchema hexFieldSample).map (fun f => (f.name, f.mongooseType, f.graphqlType)) =
      [("ref", "ObjectId", "String")] := by
  refine ⟨by rfl, by rfl, by decide, by rfl⟩

/-- C4: `analyzeSchema` examines only the first 10 samples: the result on
an array input equals the result on its 10-sample truncation, at most 10
samples are examined (this count being the `required` denominator), and a
key absent from all examined entries is absent from the FieldModel. -/
theorem sampling_cap_first_ten :
    (∀ xs : List Json, analyzeSchema (.arr xs) = analyzeSchema (.arr (xs.take 10))) ∧
    (∀ data : Json, (examinedSamples data).length ≤ 10) ∧
    (∀ (data : Json) (k : String),
      (∀ kv ∈ allEntries (examinedSamples data), kv.1 ≠ k) →
      lookupField (analyzeSchema data) k = none) := by
  refine ⟨?_, ?_, ?_⟩
  · intro xs
    simp [analyzeSchema, examinedSamples, rawSamples, List.take_take]
  · intro data
    unfold examinedSamples
    simp [List.length_take]
  · intro data k h
    rw [lookupField_analyzeSchema]
    have hke : keyEntries (allEntries (examinedSamples data)) k = [] :=
      keyEntries_of_not_mem _ k h
    have habs := foldl_processEntry_absent k (allEntries (examinedSamples data))
      [] rfl hke
    rw [scanFields_eq_foldl_allEntries, habs]
    rfl

/-- C4 witness: 15 samples in which `late` occurs only in samples 11-15;
the field is entirely absent from the resulting FieldModel. -/
theorem sampling_cap_first_ten_witness :
    lookupField (analyzeSchema lateFieldData) "late" = none :=
  sampling_cap_first_ten.2.2 lateFieldData "late" (by decide)

/-- C7: the reserved identity keys `_id` and `__v` never become fields of
the FieldModel, for any input; on the spec's sample
`{"_id": "...", "__v": 0, "name": "x"}` only `name` remains. -/
theorem reserved_keys_never_become_fields :
    (∀ data : Json, "_id" ∉ (analyzeSchema data).map Field.name ∧
      "__v" ∉ (analyzeSchema data).map Field.name) ∧
    (analyzeSchema reservedKeySample).map Field.name = ["name"] := by
  constructor
  · intro data
    constructor <;>
    · rw [← lookupField_none_iff, lookupField_analyzeSchema,
        scanFields_eq_foldl_allEntries,
        foldl_processEntry_reserved _ (by rfl) _ []]
      rfl
  · rfl

/-- C9: `analyzeSchema` is a pure function of its input — the source keeps
all state in per-call locals, so the embedding is a Lean function and two
runs on the same data give the same FieldModel (same field order, types,
required flags and sample values). -/
theorem analyzeSchema_deterministic :
    ∀ d1 d2 : Json, d1 = d2 → analyzeSchema d1 = analyzeSchema d2 := by
  intro d1 d2 h
  rw [h]

/-- C9 witness: two runs on the concrete sample agree. -/
theorem analyzeSchema_deterministic_witness :
    analyzeSchema twoFieldSample = analyzeSchema twoFieldSample :=
  analyzeSchema_deterministic twoFieldSample twoFieldSample rfl

theorem processEntryE_ok (fs : List FieldAcc) (kv : String × Json)
    (h : inheritedKey kv.1 = false) :
    processEntryE fs kv = .ok (processEntry fs kv) := by
  unfold processEntryE processEntry
  by_cases hr : reservedKey kv.1 = true
  · rw [if_pos hr, if_pos hr]
  · rw [if_neg hr, if_neg hr]
    show _ = Except.ok ((if (fs.any fun f => f.name == kv.1) = true then fs
      else fs ++ [newFieldAcc kv]).map (updateSlot kv))
    by_cases hany : (fs.any fun f => f.name == kv.1) = true
    · rw [if_pos hany, if_pos hany]
    · rw [if_neg hany, if_neg hany, if_neg (by simp [h])]

theorem foldProcessE_ok (es : List (String × Json))
    (h : ∀ kv ∈ es, inheritedKey kv.1 = false) :
    ∀ fs : List FieldAcc, foldProcessE fs es = .ok (es.foldl processEntry fs) := by
  induction es with
  | nil => intro fs; rfl
  | cons e es ih =>
      intro fs
      unfold foldProcessE
      rw [processEntryE_ok fs e (h e (List.mem_cons_self e es))]
      exact ih (fun kv hkv => h kv (List.mem_cons_of_mem e hkv)) (processEntry fs e)

theorem scanAllE_ok (samples : List Json)
    (h : ∀ s ∈ samples, ∀ kv ∈ entriesOf s, inheritedKey kv.1 = false) :
    ∀ fs : List FieldAcc,
      scanAllE fs samples =
        .ok (samples.foldl (fun fs s => (entriesOf s).foldl processEntry fs) fs) := by
  induction samples with
  | nil => intro fs; rfl
  | cons s rest ih =>
      intro fs
      unfold scanAllE
      rw [foldProcessE_ok (entriesOf s) (h s (List.mem_cons_self s rest)) fs]
      exact ih (fun x hx => h x (List.mem_cons_of_mem s hx)) _

theorem analyzeSchemaE_ok (data : Json)
    (h : ∀ kv ∈ allEntries (examinedSamples data), inheritedKey kv.1 = false) :
    analyzeSchemaE data = .ok (analyzeSchema data) := by
  have hper : ∀ s ∈ examinedSamples data, ∀ kv ∈ entriesOf s, inheritedKey kv.1 = false := by
    intro s hs kv hkv
    apply h
    unfold allEntries
    rw [List.mem_flatten]
    exact ⟨entriesOf s, List.mem_map_of_mem entriesOf hs, hkv⟩
  unfold analyzeSchemaE
  show (match scanAllE [] (examinedSamples data) with
    | Except.error e => Except.error e
    | Except.ok fs => Except.ok (fs.map (finalizeField (examinedSamples data).length))) =
      Except.ok (analyzeSchema data)
  rw [scanAllE_ok (examinedSamples data) hper []]
  rfl

/-- C10 counterexample: the claim asserts `analyzeSchema` raises no error
on any input whose first 10 entries include non-objects. On
`[{"constructor": 1}, 5]` — whose examined samples do include the
non-object `5` — the creation guard `!fields[key]` misfires on the
`Object.prototype`-inherited key `constructor` and the source throws a
TypeError at `fields[key].samples.length` (line 129), modelled by
`analyzeSchemaE`. -/
theorem inherited_key_scan_throws :
    examinedSamples protoKeyCounterData =
      [Json.obj [("constructor", Json.num 1)], Json.num 5] ∧
    isObjectSample (Json.num 5) = false ∧
    analyzeSchemaE protoKeyCounterData = .error scanTypeError := by
  exact ⟨by rfl, by rfl, by rfl⟩

/-- C10 amended: for inputs whose first 10 entries include non-objects,
provided no scanned entry key is inherited from `Object.prototype`, the
scan raises no error and returns the error-free model; non-object entries
contribute no fields (the scan is unchanged by dropping them) yet still
count in the `required` denominator, which is the full examined-sample
count. Concretely, with 8 object entries carrying `name` plus a number and
a null, `name` is present in 8 of 10 and is not required. -/
theorem non_object_samples_counted_no_error :
    (∀ data : Json,
      (∀ kv ∈ allEntries (examinedSamples data), inheritedKey kv.1 = false) →
      analyzeSchemaE data = .ok (analyzeSchema data)) ∧
    (∀ samples : List Json, scanFields samples = scanFields (samples.filter isObjectSample)) ∧
    (∀ data : Json, analyzeSchema data =
      (scanFields ((examinedSamples data).filter isObjectSample)).map
        (finalizeField (examinedSamples data).length)) ∧
    (analyzeSchema mixedEntriesData).map (fun f => (f.name, f.required)) = [("name", false)] := by
  refine ⟨?_, ?_, ?_, by rfl⟩
  · intro data h
    exact analyzeSchemaE_ok data h
  · intro samples
    unfold scanFields
    exact foldl_scan_filter samples []
  · intro data
    show (scanFields (examinedSamples data)).map
        (finalizeField (examinedSamples data).length) = _
    rw [show scanFields (examinedSamples data) =
      scanFields ((examinedSamples data).filter isObjectSample) from by
        unfold scanFields
        exact foldl_scan_filter _ []]

/-- C10 witness: the 8-objects-plus-two-non-objects input has no inherited
keys, so its scan completes without error. -/
theorem non_object_samples_counted_no_error_witness :
    analyzeSchemaE mixedEntriesData = .ok (analyzeSchema mixedEntriesData) :=
  non_object_samples_counted_no_error.1 mixedEntriesData (by decide)

end Aapi

namespace Aapi

set_option maxRecDepth 10000

/-- C2: a field's `required` flag is true iff its presence count over the
number of examined samples strictly exceeds 0.8; at the boundary, presence
in 8 of 10 samples gives `required = false` and presence in 9 of 10 gives
`required = true`. (The per-sample key lists are assumed duplicate-free, as
`Object.entries` guarantees.) -/
theorem required_iff_presence_ratio :
    (∀ (data : Json) (k : String) (f : Field),
      (∀ s ∈ examinedSamples data, ((entriesOf s).map Prod.fst).Nodup) →
      reservedKey k = false →
      lookupField (analyzeSchema data) k = some f →
      (f.required = true ↔
        ((samplesContaining (examinedSamples data) k : ℚ) /
          ((examinedSamples data).length : ℚ) > (0.8 : ℚ)))) ∧
    (analyzeSchema eightOfTenData).map (fun f => (f.name, f.required)) = [("score", false)] ∧
    (analyzeSchema nineOfTenData).map (fun f => (f.name, f.required)) = [("score", true)] := by
  refine ⟨?_, by rfl, by rfl⟩
  intro data k f hnd hr hlk
  rw [lookupField_analyzeSchema] at hlk
  cases hacc : lookupAcc (scanFields (examinedSamples data)) k with
  | none => rw [hacc] at hlk; cases hlk
  | some fa =>
      rw [hacc, Option.map_some'] at hlk
      have hf : f = finalizeField (examinedSamples data).length fa := by
        cases hlk
        rfl
      rw [scanFields_eq_foldl_allEntries] at hacc
      cases hke : keyEntries (allEntries (examinedSamples data)) k with
      | nil =>
          have habs := foldl_processEntry_absent k (allEntries (examinedSamples data))
            [] rfl hke
          rw [habs] at hacc
          cases hacc
      | cons kv0 rest =>
          obtain ⟨f2, h1, h2, h3, h4, h5⟩ :=
            foldl_processEntry_create k hr (allEntries (examinedSamples data)) [] rfl kv0 rest hke
          rw [h1] at hacc
          have hfa : f2 = fa := by
            cases hacc
            rfl
          have hcount : fa.count = (keyEntries (allEntries (examinedSamples data)) k).length := by
            rw [← hfa, h5, hke]
          have hreq : f.required =
              requiredThreshold (keyEntries (allEntries (examinedSamples data)) k).length
                (examinedSamples data).length := by
            rw [hf]
            show requiredThreshold fa.count (examinedSamples data).length = _
            rw [hcount]
          rw [hreq, ← samplesContaining_eq_keyEntries_length (examinedSamples data) k hnd]
          exact requiredThreshold_iff _ _

/-- C2 witness: applies the boundary 9-of-10 instance. -/
theorem required_iff_presence_ratio_witness :
    scoreFieldNine.required = true ↔
      ((samplesContaining (examinedSamples nineOfTenData) "score" : ℚ) /
        ((examinedSamples nineOfTenData).length : ℚ) > (0.8 : ℚ)) :=
  required_iff_presence_ratio.1 nineOfTenData "score" scoreFieldNine
    (by decide) (by rfl) (by rfl)

/-- C3: a field's stored and API types are the ones inferred from the value
of the first scanned entry bearing that key; later conflicting samples never
change them. Concretely, a first string value followed by a number value
leaves the string-derived type pair. -/
theorem first_seen_type_persists :
    (∀ (data : Json) (k : String) (kv0 : String × Json) (rest : List (String × Json)),
      reservedKey k = false →
      keyEntries (allEntries (examinedSamples data)) k = kv0 :: rest →
      ∃ f, lookupField (analyzeSchema data) k = some f ∧
        f.mongooseType = inferMongooseType kv0.2 ∧
        f.graphqlType = inferGraphQLType kv0.2) ∧
    (analyzeSchema firstSeenData).map (fun f => (f.name, f.mongooseType, f.graphqlType)) =
      [("a", "String", "String")] := by
  refine ⟨?_, by rfl⟩
  intro data k kv0 rest hr hke
  obtain ⟨f2, h1, h2, h3, h4, h5⟩ :=
    foldl_processEntry_create k hr (allEntries (examinedSamples data)) [] rfl kv0 rest hke
  refine ⟨finalizeField (examinedSamples data).length f2, ?_, h3, h4⟩
  rw [lookupField_analyzeSchema, scanFields_eq_foldl_allEntries, h1]
  rfl

/-- C3 witness: a first string value then a number value for key `a`. -/
theorem first_seen_type_persists_witness :
    ∃ f, lookupField (analyzeSchema firstSeenData) "a" = some f ∧
      f.mongooseType = inferMongooseType (Json.str "x") ∧
      f.graphqlType = inferGraphQLType (Json.str "x") :=
  first_seen_type_persists.1 firstSeenData "a" ("a", Json.str "x")
    [("a", Json.num 1)] (by rfl) (by rfl)

/-- C5: the single-value inference mapping for every non-hex case: null,
date-prefixed strings, other strings, integer and fractional numbers,
booleans, non-empty and empty arrays, and plain objects. -/
theorem single_value_inference_table :
    (inferMongooseType .null = "Mixed" ∧ inferGraphQLType .null = "String") ∧
    (∀ s : String, matchesLeadingDate s = true →
      inferMongooseType (.str s) = "Date" ∧ inferGraphQLType (.str s) = "Date") ∧
    (∀ s : String, matchesLeadingDate s = false → matchesObjectId s = false →
      inferMongooseType (.str s) = "String" ∧ inferGraphQLType (.str s) = "String") ∧
    (∀ q : ℚ, q.den = 1 →
      inferMongooseType (.num q) = "Number" ∧ inferGraphQLType (.num q) = "Int") ∧
    (∀ q : ℚ, q.den ≠ 1 →
      inferMongooseType (.num q) = "Number" ∧ inferGraphQLType (.num q) = "Float") ∧
    (∀ b : Bool, inferMongooseType (.bool b) = "Boolean" ∧ inferGraphQLType (.bool b) = "Boolean") ∧
    (∀ (x : Json) (xs : List Json),
      inferMongooseType (.arr (x :: xs)) = "[" ++ inferMongooseType x ++ "]" ∧
      inferGraphQLType (.arr (x :: xs)) = "[" ++ inferGraphQLType x ++ "]") ∧
    (inferMongooseType (.arr []) = "[Mixed]" ∧ inferGraphQLType (.arr []) = "[String]") ∧
    (∀ kvs : List (String × Json),
      inferMongooseType (.obj kvs) = "Mixed" ∧ inferGraphQLType (.obj kvs) = "JSON") := by
  refine ⟨⟨rfl, rfl⟩, ?_, ?_, ?_, ?_, ?_, ?_, ⟨rfl, rfl⟩, ?_⟩
  · intro s h
    constructor <;> simp [inferMongooseType, inferGraphQLType, h]
  · intro s h1 h2
    constructor <;> simp [inferMongooseType, inferGraphQLType, h1, h2]
  · intro q h
    constructor <;> simp [inferMongooseType, inferGraphQLType, h]
  · intro q h
    constructor <;> simp [inferMongooseType, inferGraphQLType, h]
  · intro b
    exact ⟨rfl, rfl⟩
  · intro x xs
    exact ⟨rfl, rfl⟩
  · intro kvs
    exact ⟨rfl, rfl⟩

/-- C5 witness: concrete instances of the table rows with hypotheses. -/
theorem single_value_inference_table_witness :
    (inferMongooseType (.str "2024-01-15T00:00:00Z") = "Date" ∧
      inferGraphQLType (.str "2024-01-15T00:00:00Z") = "Date") ∧
    (inferMongooseType (.str "john_doe") = "String" ∧
      inferGraphQLType (.str "john_doe") = "String") ∧
    (inferMongooseType (.num 42) = "Number" ∧ inferGraphQLType (.num 42) = "Int") ∧
    (inferMongooseType (.num (mkRat 157 50)) = "Number" ∧
      inferGraphQLType (.num (mkRat 157 50)) = "Float") :=
  ⟨single_value_inference_table.2.1 "2024-01-15T00:00:00Z" (by rfl),
   single_value_inference_table.2.2.1 "john_doe" (by rfl) (by rfl),
   single_value_inference_table.2.2.2.1 42 (by rfl),
   single_value_inference_table.2.2.2.2.1 (mkRat 157 50) (by decide)⟩

end Aapi

namespace Aapi

set_option maxRecDepth 10000

/-- C6 counterexample: with the one-field model from `{"name": "x"}`, the
field `name` does not occur at all in the resolver artifact (so not
"exactly once in each of the three artifacts"), and occurs twice in the
combined typed-API schema (object type plus input declaration). -/
theorem field_absent_from_resolver_artifact :
    (analyzeSchema nameOnlySample).map Field.name = ["name"] ∧
    countSubstr "name" (generateResolvers "User" (analyzeSchema nameOnlySample)) = 0 ∧
    countSubstr "name" (generateCompleteGraphQLSchema "User" (analyzeSchema nameOnlySample)) = 2 := by
  refine ⟨by rfl, by rfl, by rfl⟩

/-- C6 amended: every field yields exactly one line, prefixed by its name,
in the storage-schema fragment and in the typed-API object type
declaration, and (unless named `_id`/`createdAt`/`updatedAt`) in the input
declaration, in FieldModel order; the resolver text never depends on the
fields; `_id`, `createdAt` and `updatedAt` are rendered in the object type
but never in the input type. -/
theorem rendering_per_declaration_consistency :
    (∀ f : Field, ∃ rest, mongooseFieldLine f = ("  " ++ f.name ++ ":") ++ rest) ∧
    (∀ f : Field, ∃ rest, graphqlFieldLine f = ("  " ++ f.name ++ ":") ++ rest) ∧
    (∀ (t : String) (fields : List Field), generateResolvers t fields = generateResolvers t []) ∧
    (∀ (t : String) (fields : List Field),
      generateGraphQLInput t fields = generateGraphQLInput t (fields.filter inputFieldFilter)) ∧
    ((analyzeSchema twoFieldSample).map Field.name = ["name", "age"] ∧
      countSubstr "  name:" (generateMongooseSchema (analyzeSchema twoFieldSample)) = 1 ∧
      countSubstr "  age:" (generateMongooseSchema (analyzeSchema twoFieldSample)) = 1 ∧
      substrPos "  name:" (generateMongooseSchema (analyzeSchema twoFieldSample)) = some 2 ∧
      substrPos "  age:" (generateMongooseSchema (analyzeSchema twoFieldSample)) = some 44 ∧
      countSubstr "  name:" (generateGraphQLType "User" (analyzeSchema twoFieldSample)) = 1 ∧
      countSubstr "  age:" (generateGraphQLType "User" (analyzeSchema twoFieldSample)) = 1 ∧
      substrPos "  name:" (generateGraphQLType "User" (analyzeSchema twoFieldSample)) = some 23 ∧
      substrPos "  age:" (generateGraphQLType "User" (analyzeSchema twoFieldSample)) = some 39 ∧
      countSubstr "  name:" (generateGraphQLInput "User" (analyzeSchema twoFieldSample)) = 1 ∧
      countSubstr "  age:" (generateGraphQLInput "User" (analyzeSchema twoFieldSample)) = 1 ∧
      substrPos "  name:" (generateGraphQLInput "User" (analyzeSchema twoFieldSample)) = some 18 ∧
      substrPos "  age:" (generateGraphQLInput "User" (analyzeSchema twoFieldSample)) = some 34 ∧
      countSubstr "_id" (generateGraphQLType "User" (analyzeSchema twoFieldSample)) = 1 ∧
      countSubstr "createdAt" (generateGraphQLType "User" (analyzeSchema twoFieldSample)) = 1 ∧
      countSubstr "updatedAt" (generateGraphQLType "User" (analyzeSchema twoFieldSample)) = 1 ∧
      countSubstr "_id" (generateGraphQLInput "User" (analyzeSchema twoFieldSample)) = 0 ∧
      countSubstr "createdAt" (generateGraphQLInput "User" (analyzeSchema twoFieldSample)) = 0 ∧
      countSubstr "updatedAt" (generateGraphQLInput "User" (analyzeSchema twoFieldSample)) = 0) := by
  refine ⟨?_, ?_, ?_, ?_, ?_⟩
  · intro f
    unfold mongooseFieldLine
    by_cases h1 : startsWithLBracket f.mongooseType = true
    · refine ⟨" \x7b type: " ++ f.mongooseType ++
        (if f.required then ", required: true" else "") ++ " \x7d", ?_⟩
      simp only [h1, if_true, String.append_assoc]
      congr 1
    · by_cases h2 : (f.mongooseType == "Mixed") = true
      · refine ⟨" \x7b type: mongoose.Schema.Types.Mixed" ++
          (if f.required then ", required: true" else "") ++ " \x7d", ?_⟩
        simp only [h1, h2, if_true, if_false, Bool.false_eq_true, String.append_assoc]
        congr 1
      · by_cases h3 : (f.mongooseType == "ObjectId") = true
        · refine ⟨" \x7b type: mongoose.Schema.Types.ObjectId, ref: \x27TODO\x27" ++
            (if f.required then ", required: true" else "") ++ " \x7d", ?_⟩
          simp only [h1, h2, h3, if_true, if_false, Bool.false_eq_true, String.append_assoc]
          congr 1
        · refine ⟨" \x7b type: " ++ f.mongooseType ++
            (if f.required then ", required: true" else "") ++ " \x7d", ?_⟩
          simp only [h1, h2, h3, if_false, Bool.false_eq_true, String.append_assoc]
          congr 1
  · intro f
    refine ⟨" " ++ f.graphqlType ++ (if f.required then "!" else ""), ?_⟩
    unfold graphqlFieldLine
    simp only [String.append_assoc]
    congr 1
  · intro t fields
    rfl
  · intro t fields
    unfold generateGraphQLInput
    rw [List.filter_filter]
    simp
  · refine ⟨by rfl, by rfl, by rfl, by rfl, by rfl, by rfl, by rfl, by rfl, by rfl,
      by rfl, by rfl, by rfl, by rfl, by rfl, by rfl, by rfl, by rfl, by rfl, by rfl⟩

end Aapi

namespace Aapi

set_option maxRecDepth 10000

/-- C8: for every type name, the emitted resolver text is the concatenation
of the five operation stubs; the get-by-id and update stubs each embed the
distinguishable `<TypeName> not found` throw, and (at the representative
type name `User`) those are the only two `throw` sites — the create and
delete stubs have none, and the delete stub returns `!!result`. At the
semantic level, get-by-id and update fail with `<TypeName> not found`
exactly when no entity matches the id, delete never fails and returns
whether a matching entity existed, and create inserts the input verbatim
with no failure branch. -/
theorem resolver_failure_taxonomy :
    (∀ (t : String) (fields : List Field),
      generateResolvers t fields =
        resolversHeader t ++ listStub t ++ getByIdStub t ++ mutationOpen ++
          createStub t ++ updateStub t ++ deleteStub t ++ resolversFooter) ∧
    (∀ t : String, ∃ pre post, getByIdStub t =
      pre ++ ("throw new Error(\x27" ++ (t ++ " not found\x27)")) ++ post) ∧
    (∀ t : String, ∃ pre post, updateStub t =
      pre ++ ("throw new Error(\x27" ++ (t ++ " not found\x27)")) ++ post) ∧
    (countSubstr "throw" (generateResolvers "User" []) = 2 ∧
      countSubstr "throw" (getByIdStub "User") = 1 ∧
      countSubstr "throw" (updateStub "User") = 1 ∧
      countSubstr "throw" (createStub "User") = 0 ∧
      countSubstr "throw" (deleteStub "User") = 0 ∧
      countSubstr "throw" (resolversHeader "User" ++ listStub "User") = 0 ∧
      countSubstr " not found" (generateResolvers "User" []) = 2 ∧
      countSubstr "return !!result;" (deleteStub "User") = 1) ∧
    (∀ (α : Type) (t : String) (st : EntityStore α) (id : String),
      (∃ e, getByIdSemantics t st id = .ok e ∧ storeFindById st id = some e) ∨
      (getByIdSemantics t st id = .error (t ++ " not found") ∧ storeFindById st id = none)) ∧
    (∀ (α : Type) (t : String) (applyUpdate : α → α → α) (st : EntityStore α)
        (id : String) (input : α),
      (∃ pr, updateSemantics t applyUpdate st id input = .ok pr ∧
        (storeFindById st id).isSome = true) ∨
      (updateSemantics t applyUpdate st id input = .error (t ++ " not found") ∧
        storeFindById st id = none)) ∧
    (∀ (α : Type) (st : EntityStore α) (id : String),
      (deleteSemantics st id).1 = (storeFindById st id).isSome) ∧
    (∀ (α : Type) (st : EntityStore α) (freshId : String) (input : α),
      (createSemantics st freshId input).1 = input ∧
      (createSemantics st freshId input).2.docs = st.docs ++ [(freshId, input)]) := by
  refine ⟨?_, ?_, ?_, ?_, ?_, ?_, ?_, ?_⟩
  · intro t fields
    rfl
  · intro t
    refine ⟨"    " ++ lowerFirst t ++
      ": async (_, \x7b id \x7d) => \x7b\n      const result = await " ++ t ++
      ".findById(id).lean();\n      if (!result) ",
      ";\n      return result;\n    \x7d,\n", ?_⟩
    unfold getByIdStub
    simp only [String.append_assoc]
    congr 1
  · intro t
    refine ⟨"    update" ++ t ++
      ": async (_, \x7b id, input \x7d) => \x7b\n      const result = await " ++ t ++
      ".findByIdAndUpdate(\n        id,\n        input,\n        \x7b new: true, lean: true \x7d\n      );\n      if (!result) ",
      ";\n      return result;\n    \x7d,\n", ?_⟩
    unfold updateStub
    simp only [String.append_assoc]
    congr 1
  · exact ⟨by rfl, by rfl, by rfl, by rfl, by rfl, by rfl, by rfl, by rfl⟩
  · intro α t st id
    cases h : storeFindById st id with
    | none => exact Or.inr ⟨by simp [getByIdSemantics, h], rfl⟩
    | some e => exact Or.inl ⟨e, by simp [getByIdSemantics, h], rfl⟩
  · intro α t applyUpdate st id input
    cases h : storeFindById st id with
    | none => exact Or.inr ⟨by simp [updateSemantics, h], rfl⟩
    | some old =>
        exact Or.inl ⟨(applyUpdate old input,
          ⟨st.docs.map (fun p => if p.1 == id then (p.1, applyUpdate old input) else p)⟩),
          by simp [updateSemantics, h], by simp [h]⟩
  · intro α st id
    cases h : storeFindById st id with
    | none => simp [deleteSemantics, h]
    | some e => simp [deleteSemantics, h]
  · intro α st freshId input
    exact ⟨rfl, rfl⟩

end Aapi
